import Mathlib

/-!
Verification of the robotaxi ride-history exporter.

The definitions below are a shallow embedding of `robotaxi_history.py` and
`web/server.py`.  JSON values are modelled by the inductive `JValue`; Python
dictionaries become association lists looked up by `dictGet` (first match,
as Python dict keys are unique); HTTP traffic is modelled by explicit
response oracles passed to the embedded functions; `sys.exit` paths and
uncaught exceptions become explicit outcome constructors.
-/

/-- JSON-like values as handled by the Python program (dicts are
association lists; numbers restricted to integers, which suffices for the
properties verified here). -/
inductive JValue where
  | jNull : JValue
  | jBool : Bool → JValue
  | jNum : Int → JValue
  | jStr : String → JValue
  | jArr : List JValue → JValue
  | jObj : List (String × JValue) → JValue
deriving Repr, BEq

/-- Python `d.get(k)` on a dict modelled as an association list
(first binding wins; Python dicts have unique keys). -/
def dictGet (fs : List (String × JValue)) (k : String) : Option JValue :=
  (fs.find? (fun p => p.1 == k)).map (fun p => p.2)

/-- Python truthiness of a JSON value (`if not rides:`). -/
def pyFalsy : JValue → Bool
  | .jNull => true
  | .jBool b => !b
  | .jNum n => n == 0
  | .jStr s => s.isEmpty
  | .jArr xs => xs.isEmpty
  | .jObj fs => fs.isEmpty

/-- Python iteration over a value (`list.extend(rides)`): lists yield their
elements, strings their one-character substrings, dicts their keys; other
truthy values raise `TypeError` (modelled as `none`). -/
def pyIter : JValue → Option (List JValue)
  | .jArr xs => some xs
  | .jStr s => some (s.data.map (fun c => .jStr (String.mk [c])))
  | .jObj fs => some (fs.map (fun p => .jStr p.1))
  | _ => none

/-- Embedding of the ride-list extraction in `fetch_all_rides`
(`robotaxi_history.py` lines 246-251): nested `data.rides` when `data` maps
to a dict, else top-level `rides` falling back to top-level `data`, else
the payload itself when it is a list, else `[]`. -/
def extract_rides (data : JValue) : JValue :=
  match data with
  | .jObj fs =>
    match dictGet fs "data" with
    | some (.jObj dfs) => (dictGet dfs "rides").getD (.jArr [])
    | _ => (dictGet fs "rides").getD ((dictGet fs "data").getD (.jArr []))
  | .jArr xs => .jArr xs
  | _ => .jArr []

/-- Spec strategy 1: a nested `data.rides` array, applicable when the
payload is a dict whose `data` value is a dict. -/
def strat_nested_data_rides : JValue → Option JValue
  | .jObj fs =>
    match dictGet fs "data" with
    | some (.jObj dfs) => some ((dictGet dfs "rides").getD (.jArr []))
    | _ => none
  | _ => none

/-- Spec strategy 2: a top-level `rides` entry of a dict payload. -/
def strat_top_rides : JValue → Option JValue
  | .jObj fs => dictGet fs "rides"
  | _ => none

/-- Spec strategy 3: a top-level `data` entry of a dict payload. -/
def strat_top_data : JValue → Option JValue
  | .jObj fs => dictGet fs "data"
  | _ => none

/-- Spec strategy 4: the whole payload, when it is a list. -/
def strat_whole_list : JValue → Option JValue
  | .jArr xs => some (.jArr xs)
  | _ => none

/-- First-match combination of extraction strategies: the first strategy
that returns a result wins and later strategies are not consulted. -/
def firstMatch (strats : List (JValue → Option JValue)) (data : JValue) : Option JValue :=
  match strats with
  | [] => none
  | s :: rest =>
    match s data with
    | some r => some r
    | none => firstMatch rest data

/-- The spec-side extraction: the four strategies in the spec order,
combined first-match-wins, defaulting to the empty list. -/
def extract_rides_spec (data : JValue) : JValue :=
  (firstMatch [strat_nested_data_rides, strat_top_rides, strat_top_data, strat_whole_list]
    data).getD (.jArr [])

/-- C5: for every payload, the extraction in `fetch_all_rides` equals the
first-match combination of the four spec strategies, in the spec order:
nested `data.rides` (payload is a dict whose `data` value is a dict), then
top-level `rides`, then top-level `data`, then the whole payload as the
list; the first matching strategy wins. -/
theorem C5_extraction_strategy_order (data : JValue) :
    extract_rides data = extract_rides_spec data := by
  cases data <;>
    simp only [extract_rides, extract_rides_spec, firstMatch, strat_nested_data_rides,
      strat_top_rides, strat_top_data, strat_whole_list, Option.getD]
  case jObj fs =>
    cases hdata : dictGet fs "data" with
    | none =>
      cases hr : dictGet fs "rides" <;> simp [hdata, hr, firstMatch]
    | some v =>
      cases v <;> cases hr : dictGet fs "rides" <;> simp [hdata, hr, firstMatch]

/-- An API endpoint candidate: (base url, path). -/
abbrev Endpoint := String × String

/-- The first candidate endpoint of `API_ENDPOINTS`. -/
def EP0 : Endpoint := ("https://ownership.tesla.com", "/mobile-app/ride/history")

/-- The second candidate endpoint of `API_ENDPOINTS`. -/
def EP1 : Endpoint := ("https://akamai-apigateway-charging-ownership.tesla.com", "/mobile-app/ride/history")

/-- The fixed ordered candidate list `API_ENDPOINTS`. -/
def API_ENDPOINTS : List Endpoint := [EP0, EP1]

/-- `PAGE_SIZE` from the source. -/
def PAGE_SIZE : Nat := 100

/-- Result of one `requests.get` call: an HTTP response with a status code
and a JSON body, or a raised `requests.exceptions.RequestException`. -/
inductive ReqResult where
  | resp (status : Nat) (body : JValue)
  | exn
deriving Repr

/-- The network oracle: the response the ride-history API gives for a given
page number at a given endpoint. -/
def Network := Nat → Endpoint → ReqResult

/-- Result of `get_ride_history`: either an uncaught exception propagates to
the caller, or the function returns a `(data, working_endpoint)` pair. -/
inductive GRHResult where
  | raised
  | ret (data : Option JValue) (ep : Option Endpoint)
deriving Repr

/-- The probing loop of `get_ride_history` (no endpoint pinned yet): try
each candidate in order, returning the first 200 response and pinning its
endpoint; non-200 responses and request exceptions move on to the next
candidate; if all fail, return `(None, None)`.  Also records the trace of
`(page, endpoint)` requests issued. -/
def probe_endpoints (net : Network) (page : Nat) :
    List Endpoint → GRHResult × List (Nat × Endpoint)
  | [] => (.ret none none, [])
  | ep :: rest =>
    match net page ep with
    | .resp s body =>
      if s == 200 then (.ret (some body) (some ep), [(page, ep)])
      else
        let r := probe_endpoints net page rest
        (r.1, (page, ep) :: r.2)
    | .exn =>
      let r := probe_endpoints net page rest
      (r.1, (page, ep) :: r.2)

/-- Embedding of `get_ride_history`.  With a pinned endpoint it issues
exactly one GET: a 401 or any other non-200 status returns `(None, None)`
(no retry against other candidates), and a request exception propagates
(this branch of the source has no try/except).  With no pinned endpoint it
probes the candidates in order. -/
def get_ride_history (net : Network) (page : Nat) (we : Option Endpoint) :
    GRHResult × List (Nat × Endpoint) :=
  match we with
  | some ep =>
    match net page ep with
    | .resp s body =>
      if s == 401 then (.ret none none, [(page, ep)])
      else if s != 200 then (.ret none none, [(page, ep)])
      else (.ret (some body) (some ep), [(page, ep)])
    | .exn => (.raised, [(page, ep)])
  | none => probe_endpoints net page API_ENDPOINTS

/-- Outcome of the `fetch_all_rides` loop: fuel exhaustion (the embedding
bounds the unbounded `while True`), an uncaught exception, or a normal
return with the accumulated ride list. -/
inductive FetchOutcome where
  | outOfFuel
  | raised
  | done (rides : List JValue)
deriving Repr

/-- The `while True` loop of `fetch_all_rides`, with explicit fuel and a
trace of requests issued.  Per iteration: fetch the page, break on a `None`
result (returning the accumulated rides), extract the ride list, break if
it is falsy, extend the accumulator (`TypeError` on non-iterables raises),
break after extending if the page is shorter than `PAGE_SIZE`, else
continue with the next page and the endpoint returned by the fetch. -/
def fetch_pages (net : Network) (fuel : Nat) (page : Nat) (we : Option Endpoint)
    (acc : List JValue) : FetchOutcome × List (Nat × Endpoint) :=
  match fuel with
  | 0 => (.outOfFuel, [])
  | f + 1 =>
    match get_ride_history net page we with
    | (.raised, t) => (.raised, t)
    | (.ret none _, t) => (.done acc, t)
    | (.ret (some d) we2, t) =>
      let rides := extract_rides d
      if pyFalsy rides then (.done acc, t)
      else
        match pyIter rides with
        | none => (.raised, t)
        | some elems =>
          if elems.length < PAGE_SIZE then (.done (acc ++ elems), t)
          else
            let r := fetch_pages net f (page + 1) we2 (acc ++ elems)
            (r.1, t ++ r.2)

/-- Embedding of `fetch_all_rides`: run the loop from page 1 with no pinned
endpoint and an empty accumulator. -/
def fetch_all_rides (net : Network) (fuel : Nat) : FetchOutcome × List (Nat × Endpoint) :=
  fetch_pages net fuel 1 none []

theorem pinned_ok {net : Network} {p : Nat} {ep : Endpoint} {d : JValue}
    (h : net p ep = .resp 200 d) :
    get_ride_history net p (some ep) = (.ret (some d) (some ep), [(p, ep)]) := by
  simp [get_ride_history, h]

theorem pinned_fail {net : Network} {p : Nat} {ep : Endpoint} {s : Nat} {b : JValue}
    (h : net p ep = .resp s b) (hs : s ≠ 200) :
    get_ride_history net p (some ep) = (.ret none none, [(p, ep)]) := by
  by_cases h401 : s = 401
  · subst h401; simp [get_ride_history, h]
  · simp [get_ride_history, h, h401, hs]

theorem pinned_exn {net : Network} {p : Nat} {ep : Endpoint}
    (h : net p ep = .exn) :
    get_ride_history net p (some ep) = (.raised, [(p, ep)]) := by
  simp [get_ride_history, h]

theorem probe_first_ok {net : Network} {p : Nat} {d : JValue}
    (h : net p EP0 = .resp 200 d) :
    get_ride_history net p none = (.ret (some d) (some EP0), [(p, EP0)]) := by
  simp [get_ride_history, API_ENDPOINTS, probe_endpoints, h]

theorem probe_second_ok {net : Network} {p : Nat} {d : JValue}
    (h0 : ∀ b, net p EP0 ≠ .resp 200 b) (h1 : net p EP1 = .resp 200 d) :
    get_ride_history net p none = (.ret (some d) (some EP1), [(p, EP0), (p, EP1)]) := by
  have hrest : probe_endpoints net p [EP1] = (.ret (some d) (some EP1), [(p, EP1)]) := by
    simp [probe_endpoints, h1]
  rcases hnet : net p EP0 with ⟨s, b⟩ | _
  · rcases eq_or_ne s 200 with rfl | hs
    · exact absurd hnet (h0 b)
    · simp [get_ride_history, API_ENDPOINTS, probe_endpoints, hnet, h1, hs]
  · simp [get_ride_history, API_ENDPOINTS, probe_endpoints, hnet, h1]

theorem fetch_step_stop {net : Network} {f page : Nat} {we : Option Endpoint}
    {acc : List JValue} {e : Option Endpoint} {t0 : List (Nat × Endpoint)}
    (h : get_ride_history net page we = (.ret none e, t0)) :
    fetch_pages net (f + 1) page we acc = (.done acc, t0) := by
  simp [fetch_pages, h]

theorem fetch_step_raised {net : Network} {f page : Nat} {we : Option Endpoint}
    {acc : List JValue} {t0 : List (Nat × Endpoint)}
    (h : get_ride_history net page we = (.raised, t0)) :
    fetch_pages net (f + 1) page we acc = (.raised, t0) := by
  simp [fetch_pages, h]

theorem fetch_step_short {net : Network} {f page : Nat} {we we2 : Option Endpoint}
    {A xs : List JValue} {d : JValue} {t0 : List (Nat × Endpoint)}
    (h : get_ride_history net page we = (.ret (some d) we2, t0))
    (hx : extract_rides d = .jArr xs)
    (hshort : xs.length < PAGE_SIZE) :
    fetch_pages net (f + 1) page we A = (.done (A ++ xs), t0) := by
  rcases xs with _ | ⟨x, xs⟩
  · simp [fetch_pages, h, hx, pyFalsy]
  · have hshort2 : xs.length + 1 < PAGE_SIZE := by simpa using hshort
    simp [fetch_pages, h, hx, pyFalsy, pyIter, hshort2]

theorem fetch_step_cont {net : Network} {f page : Nat} {we : Option Endpoint}
    {ep : Endpoint} {A xs : List JValue} {d : JValue} {t0 : List (Nat × Endpoint)}
    (h : get_ride_history net page we = (.ret (some d) (some ep), t0))
    (hx : extract_rides d = .jArr xs)
    (hfull : xs.length = PAGE_SIZE) :
    fetch_pages net (f + 1) page we A =
      ((fetch_pages net f (page + 1) (some ep) (A ++ xs)).1,
       t0 ++ (fetch_pages net f (page + 1) (some ep) (A ++ xs)).2) := by
  rcases xs with _ | ⟨x, xs⟩
  · simp [PAGE_SIZE] at hfull
  · simp [fetch_pages, h, hx, pyFalsy, pyIter, hfull]

/-- Loop invariant for full pages: with an endpoint pinned, `j` consecutive
pages that answer 200 with exactly `PAGE_SIZE` extracted rides are all
accumulated, each issuing exactly one GET to the pinned endpoint, and the
loop continues at page `p + j`. -/
theorem fetch_skip_full (net : Network) (ep : Endpoint) (pages : Nat → List JValue) :
    ∀ (j f p : Nat) (acc : List JValue),
    (∀ i, i < j → ∃ d, net (p + i) ep = .resp 200 d ∧
        extract_rides d = .jArr (pages (p + i)) ∧ (pages (p + i)).length = PAGE_SIZE) →
    fetch_pages net (j + f) p (some ep) acc =
      ((fetch_pages net f (p + j) (some ep)
          (acc ++ (List.range j).flatMap (fun i => pages (p + i)))).1,
       (List.range j).map (fun i => (p + i, ep)) ++
         (fetch_pages net f (p + j) (some ep)
           (acc ++ (List.range j).flatMap (fun i => pages (p + i)))).2) := by
  intro j
  induction j with
  | zero => intro f p acc _; simp
  | succ j IH =>
    intro f p acc hpin
    obtain ⟨d, hd, hx, hlen⟩ := hpin 0 (Nat.succ_pos j)
    rw [Nat.add_zero] at hd hx hlen
    have hstep := fetch_step_cont (f := j + f) (A := acc) (pinned_ok hd) hx hlen
    have hfuel : j + 1 + f = (j + f) + 1 := by omega
    rw [hfuel, hstep]
    have IH2 := IH f (p + 1) (acc ++ pages p) (fun i hi => by
      have h2 := hpin (i + 1) (by omega)
      have he : p + (i + 1) = p + 1 + i := by omega
      rwa [he] at h2)
    rw [IH2]
    have h1 : (List.range j).flatMap (fun i => pages (p + (i + 1))) =
        (List.range j).flatMap (fun i => pages (p + 1 + i)) :=
      List.flatMap_congr (fun x _ => by
        rw [show p + (x + 1) = p + 1 + x from by omega])
    have h2 : (List.range j).map (fun i => (p + (i + 1), ep)) =
        (List.range j).map (fun i => (p + 1 + i, ep)) :=
      List.map_congr_left (fun x _ => by
        rw [show p + (x + 1) = p + 1 + x from by omega])
    have hacc : acc ++ pages p ++ (List.range j).flatMap (fun i => pages (p + 1 + i)) =
        acc ++ (List.range (j + 1)).flatMap (fun i => pages (p + i)) := by
      simp [List.range_succ_eq_map, List.flatMap_map, h1, List.append_assoc]
    have htr : (List.range (j + 1)).map (fun i => (p + i, ep)) =
        (p, ep) :: (List.range j).map (fun i => (p + 1 + i, ep)) := by
      simp [List.range_succ_eq_map, List.map_map, h2, Function.comp]
      omega
    have hpj : p + 1 + j = p + (j + 1) := by omega
    rw [hacc, hpj, htr]
    simp

/-- C1: given an endpoint that serves pages 1..k with exactly `PAGE_SIZE`
extracted rides and page k+1 with fewer than `PAGE_SIZE` (possibly zero),
`fetch_all_rides` requests exactly pages 1..k+1 (one GET each, pinned to
the first candidate after page 1) and returns the concatenation of all
extracted pages in page order, stopping at the first short or empty page. -/
theorem C1_pagination_termination (net : Network) (pages : Nat → List JValue) (k f : Nat)
    (h1 : ∃ d, net 1 EP0 = .resp 200 d ∧ extract_rides d = .jArr (pages 1))
    (hpin : ∀ i, 2 ≤ i → i ≤ k + 1 →
      ∃ d, net i EP0 = .resp 200 d ∧ extract_rides d = .jArr (pages i))
    (hfull : ∀ i, 1 ≤ i → i ≤ k → (pages i).length = PAGE_SIZE)
    (hshort : (pages (k + 1)).length < PAGE_SIZE) :
    fetch_all_rides net (k + 1 + f) =
      (.done ((List.range (k + 1)).flatMap (fun i => pages (i + 1))),
       (List.range (k + 1)).map (fun i => (i + 1, EP0))) := by
  obtain ⟨d1, hd1, hx1⟩ := h1
  have hgrh1 := probe_first_ok hd1
  rcases k with _ | j
  · have hfuel : 0 + 1 + f = f + 1 := by omega
    rw [hfuel]
    show fetch_pages net (f + 1) 1 none [] = _
    rw [fetch_step_short (A := []) hgrh1 hx1 hshort]
    simp [show List.range 1 = [0] from rfl]
  · have hfuel : j + 1 + 1 + f = (j + 1 + f) + 1 := by omega
    rw [hfuel]
    show fetch_pages net ((j + 1 + f) + 1) 1 none [] = _
    rw [fetch_step_cont (A := []) hgrh1 hx1 (hfull 1 (by omega) (by omega))]
    have hfuel2 : j + 1 + f = j + (f + 1) := by omega
    rw [hfuel2]
    rw [fetch_skip_full net EP0 pages j (f + 1) 2 ([] ++ pages 1) (fun i hi => by
      obtain ⟨d, hd, hx⟩ := hpin (2 + i) (by omega) (by omega)
      exact ⟨d, hd, hx, hfull (2 + i) (by omega) (by omega)⟩)]
    obtain ⟨dk, hdk, hxk⟩ := hpin (j + 1 + 1) (by omega) (by omega)
    have hdk2 : net (2 + j) EP0 = .resp 200 dk := by
      rw [show 2 + j = j + 1 + 1 from by omega]; exact hdk
    have hxk2 : extract_rides dk = .jArr (pages (2 + j)) := by
      rw [show 2 + j = j + 1 + 1 from by omega]; exact hxk
    have hshort2 : (pages (2 + j)).length < PAGE_SIZE := by
      rw [show 2 + j = j + 1 + 1 from by omega]; exact hshort
    rw [fetch_step_short (pinned_ok hdk2) hxk2 hshort2]
    have hrides : ([] ++ pages 1) ++ (List.range j).flatMap (fun i => pages (2 + i)) ++
        pages (2 + j) = (List.range (j + 1 + 1)).flatMap (fun i => pages (i + 1)) := by
      rw [List.range_succ_eq_map, List.flatMap_cons, List.flatMap_map, List.range_succ,
        List.flatMap_append]
      simp only [List.nil_append, List.flatMap_cons, List.flatMap_nil, List.append_nil,
        List.append_assoc, Nat.zero_add]
      have : (List.range j).flatMap (fun i => pages (2 + i)) =
          (List.range j).flatMap (fun i => pages (i + 1 + 1)) :=
        List.flatMap_congr (fun x _ => by rw [show 2 + x = x + 1 + 1 from by omega])
      rw [this, show 2 + j = j + 1 + 1 from by omega]
    have htrace : [((1 : Nat), EP0)] ++ ((List.range j).map (fun i => (2 + i, EP0)) ++
        [(2 + j, EP0)]) = (List.range (j + 1 + 1)).map (fun i => (i + 1, EP0)) := by
      rw [List.range_succ_eq_map, List.map_cons, List.map_map, List.range_succ,
        List.map_append]
      simp only [List.map_cons, List.map_nil, Function.comp, Nat.zero_add,
        List.append_assoc, List.singleton_append]
      have : (List.range j).map (fun i => (2 + i, EP0)) =
          (List.range j).map (fun i => (i + 1 + 1, EP0)) :=
        List.map_congr_left (fun x _ => by rw [show 2 + x = x + 1 + 1 from by omega])
      rw [this, show 2 + j = j + 1 + 1 from by omega]
      rfl
    rw [← hrides, ← htrace]

theorem fetch_step_falsy {net : Network} {f page : Nat} {we we2 : Option Endpoint}
    {acc : List JValue} {d : JValue} {t0 : List (Nat × Endpoint)}
    (h : get_ride_history net page we = (.ret (some d) we2, t0))
    (hf : pyFalsy (extract_rides d) = true) :
    fetch_pages net (f + 1) page we acc = (.done acc, t0) := by
  simp [fetch_pages, h, hf]

theorem fetch_step_tyerr {net : Network} {f page : Nat} {we we2 : Option Endpoint}
    {acc : List JValue} {d : JValue} {t0 : List (Nat × Endpoint)}
    (h : get_ride_history net page we = (.ret (some d) we2, t0))
    (hf : pyFalsy (extract_rides d) = false)
    (hi : pyIter (extract_rides d) = none) :
    fetch_pages net (f + 1) page we acc = (.raised, t0) := by
  simp [fetch_pages, h, hf, hi]

theorem fetch_step_elems_short {net : Network} {f page : Nat} {we we2 : Option Endpoint}
    {acc elems : List JValue} {d : JValue} {t0 : List (Nat × Endpoint)}
    (h : get_ride_history net page we = (.ret (some d) we2, t0))
    (hf : pyFalsy (extract_rides d) = false)
    (hi : pyIter (extract_rides d) = some elems)
    (hlen : elems.length < PAGE_SIZE) :
    fetch_pages net (f + 1) page we acc = (.done (acc ++ elems), t0) := by
  simp [fetch_pages, h, hf, hi, hlen]

theorem fetch_step_elems_cont {net : Network} {f page : Nat} {we : Option Endpoint}
    {ep : Endpoint} {acc elems : List JValue} {d : JValue} {t0 : List (Nat × Endpoint)}
    (h : get_ride_history net page we = (.ret (some d) (some ep), t0))
    (hf : pyFalsy (extract_rides d) = false)
    (hi : pyIter (extract_rides d) = some elems)
    (hlen : ¬ elems.length < PAGE_SIZE) :
    fetch_pages net (f + 1) page we acc =
      ((fetch_pages net f (page + 1) (some ep) (acc ++ elems)).1,
       t0 ++ (fetch_pages net f (page + 1) (some ep) (acc ++ elems)).2) := by
  simp [fetch_pages, h, hf, hi, hlen]

/-- Shifting a consecutive request trace by one page. -/
theorem trace_cons_shift (p m : Nat) (ep : Endpoint) :
    (List.range (m + 1)).map (fun i => (p + i, ep)) =
      (p, ep) :: (List.range m).map (fun i => (p + 1 + i, ep)) := by
  have h2 : (List.range m).map (fun i => (p + (i + 1), ep)) =
      (List.range m).map (fun i => (p + 1 + i, ep)) :=
    List.map_congr_left (fun x _ => by rw [show p + (x + 1) = p + 1 + x from by omega])
  simp [List.range_succ_eq_map, List.map_map, h2, Function.comp]
  omega

/-- With an endpoint pinned, the loop contacts only that endpoint, issuing
exactly one GET per page at consecutive page numbers. -/
theorem fetch_pinned_trace (net : Network) (ep : Endpoint) :
    ∀ (fuel p : Nat) (acc : List JValue),
    ∃ m, (fetch_pages net fuel p (some ep) acc).2 =
      (List.range m).map (fun i => (p + i, ep)) := by
  intro fuel
  induction fuel with
  | zero => intro p acc; exact ⟨0, by simp [fetch_pages]⟩
  | succ f IH =>
    intro p acc
    have hone : ((p, ep) :: ([] : List (Nat × Endpoint))) =
        (List.range 1).map (fun i => (p + i, ep)) := by
      simp [show List.range 1 = [0] from rfl]
    rcases hnet : net p ep with ⟨s, b⟩ | _
    · by_cases h200 : s = 200
      · subst h200
        have hg := pinned_ok hnet
        by_cases hf : pyFalsy (extract_rides b)
        · exact ⟨1, by rw [fetch_step_falsy hg hf]; exact hone⟩
        · rcases hi : pyIter (extract_rides b) with _ | elems
          · exact ⟨1, by
              rw [fetch_step_tyerr hg (Bool.not_eq_true _ ▸ hf) hi]; exact hone⟩
          · by_cases hlen : elems.length < PAGE_SIZE
            · exact ⟨1, by
                rw [fetch_step_elems_short hg (Bool.not_eq_true _ ▸ hf) hi hlen]
                exact hone⟩
            · obtain ⟨m, hm⟩ := IH (p + 1) (acc ++ elems)
              refine ⟨m + 1, ?_⟩
              rw [fetch_step_elems_cont hg (Bool.not_eq_true _ ▸ hf) hi hlen]
              simp only [hm, trace_cons_shift]
              rfl
      · exact ⟨1, by rw [fetch_step_stop (pinned_fail hnet h200)]; exact hone⟩
    · exact ⟨1, by rw [fetch_step_raised (pinned_exn hnet)]; exact hone⟩

/-- C3: when pages 1..j+1 are full (so the endpoint pinned on page 1 keeps
being used) and the pinned endpoint answers 401 on page j+2,
`fetch_all_rides` aborts at that page: it issues no request beyond page
j+2 and returns exactly the (non-empty) records accumulated from the prior
pages, not an empty result. -/
theorem C3_401_aborts_with_partial_results (net : Network) (pages : Nat → List JValue)
    (j f : Nat)
    (h1 : ∃ d, net 1 EP0 = .resp 200 d ∧ extract_rides d = .jArr (pages 1))
    (hpin : ∀ i, 2 ≤ i → i ≤ j + 1 →
      ∃ d, net i EP0 = .resp 200 d ∧ extract_rides d = .jArr (pages i))
    (hfull : ∀ i, 1 ≤ i → i ≤ j + 1 → (pages i).length = PAGE_SIZE)
    (h401 : ∃ b, net (j + 1 + 1) EP0 = .resp 401 b) :
    fetch_all_rides net (j + 1 + 1 + f) =
      (.done ((List.range (j + 1)).flatMap (fun i => pages (i + 1))),
       (List.range (j + 1 + 1)).map (fun i => (i + 1, EP0)))
    ∧ (List.range (j + 1)).flatMap (fun i => pages (i + 1)) ≠ [] := by
  obtain ⟨d1, hd1, hx1⟩ := h1
  have hgrh1 := probe_first_ok hd1
  constructor
  · have hfuel : j + 1 + 1 + f = (j + 1 + f) + 1 := by omega
    rw [hfuel]
    show fetch_pages net ((j + 1 + f) + 1) 1 none [] = _
    rw [fetch_step_cont (A := []) hgrh1 hx1 (hfull 1 (by omega) (by omega))]
    have hfuel2 : j + 1 + f = j + (f + 1) := by omega
    rw [hfuel2]
    rw [fetch_skip_full net EP0 pages j (f + 1) 2 ([] ++ pages 1) (fun i hi => by
      obtain ⟨d, hd, hx⟩ := hpin (2 + i) (by omega) (by omega)
      exact ⟨d, hd, hx, hfull (2 + i) (by omega) (by omega)⟩)]
    obtain ⟨b, hb⟩ := h401
    have hb2 : net (2 + j) EP0 = .resp 401 b := by
      rw [show 2 + j = j + 1 + 1 from by omega]; exact hb
    rw [fetch_step_stop (f := f) (pinned_fail hb2 (by omega))]
    have hacc : ([] ++ pages 1) ++ (List.range j).flatMap (fun i => pages (2 + i)) =
        (List.range (j + 1)).flatMap (fun i => pages (i + 1)) := by
      have hc : (List.range j).flatMap (fun i => pages (2 + i)) =
          (List.range j).flatMap (fun i => pages (i + 1 + 1)) :=
        List.flatMap_congr (fun x _ => by rw [show 2 + x = x + 1 + 1 from by omega])
      simp [List.range_succ_eq_map, List.flatMap_map, hc]
    have htrace : [((1 : Nat), EP0)] ++ ((List.range j).map (fun i => (2 + i, EP0)) ++
        [(2 + j, EP0)]) = (List.range (j + 1 + 1)).map (fun i => (i + 1, EP0)) := by
      rw [List.range_succ_eq_map, List.map_cons, List.map_map, List.range_succ,
        List.map_append]
      simp only [List.map_cons, List.map_nil, Function.comp, Nat.zero_add,
        List.append_assoc, List.singleton_append]
      have hc : (List.range j).map (fun i => (2 + i, EP0)) =
          (List.range j).map (fun i => (i + 1 + 1, EP0)) :=
        List.map_congr_left (fun x _ => by rw [show 2 + x = x + 1 + 1 from by omega])
      rw [hc, show 2 + j = j + 1 + 1 from by omega]
      rfl
    rw [← hacc, ← htrace]
  · intro hnil
    have hlen1 := hfull 1 (by omega) (by omega)
    rcases hp : pages 1 with _ | ⟨x, xs⟩
    · rw [hp] at hlen1; simp [PAGE_SIZE] at hlen1
    · have hmem : x ∈ (List.range (j + 1)).flatMap (fun i => pages (i + 1)) :=
        List.mem_flatMap.mpr ⟨0, by simp, by rw [Nat.zero_add, hp]; exact List.mem_cons_self x xs⟩
      rw [hnil] at hmem
      exact absurd hmem (List.not_mem_nil x)

/-- C4: endpoint pinning.  (1) Once the page-1 probe pins an endpoint that
answered 200 (whichever candidate it was, including the second after the
first failed), every subsequent page request goes only to that pinned
endpoint, exactly one GET per page at consecutive page numbers — no
re-probing of other candidates.  (2) A non-200 status from the pinned
endpoint ends the fetch with the accumulated records surfaced to the
caller after that single GET, and (3) a request exception from the pinned
endpoint propagates after that single GET; neither is retried against the
remaining candidates. -/
theorem C4_endpoint_pinning (net : Network) :
    (∀ (fuel : Nat) (d : JValue) (ep : Endpoint) (t0 : List (Nat × Endpoint)),
      get_ride_history net 1 none = (.ret (some d) (some ep), t0) →
      ∃ m, (fetch_all_rides net (fuel + 1)).2 =
        t0 ++ (List.range m).map (fun i => (2 + i, ep)))
    ∧ (∀ (p f2 : Nat) (ep : Endpoint) (s : Nat) (b : JValue) (acc : List JValue),
        net p ep = .resp s b → s ≠ 200 →
        fetch_pages net (f2 + 1) p (some ep) acc = (.done acc, [(p, ep)]))
    ∧ (∀ (p f2 : Nat) (ep : Endpoint) (acc : List JValue), net p ep = .exn →
        fetch_pages net (f2 + 1) p (some ep) acc = (.raised, [(p, ep)])) := by
  refine ⟨?_, ?_, ?_⟩
  · intro fuel d ep t0 hg
    show ∃ m, (fetch_pages net (fuel + 1) 1 none []).2 = _
    by_cases hf : pyFalsy (extract_rides d)
    · exact ⟨0, by rw [fetch_step_falsy hg hf]; simp⟩
    · rcases hi : pyIter (extract_rides d) with _ | elems
      · exact ⟨0, by rw [fetch_step_tyerr hg (Bool.not_eq_true _ ▸ hf) hi]; simp⟩
      · by_cases hlen : elems.length < PAGE_SIZE
        · exact ⟨0, by
            rw [fetch_step_elems_short hg (Bool.not_eq_true _ ▸ hf) hi hlen]; simp⟩
        · obtain ⟨m, hm⟩ := fetch_pinned_trace net ep fuel 2 elems
          exact ⟨m, by
            rw [fetch_step_elems_cont hg (Bool.not_eq_true _ ▸ hf) hi hlen]
            simp [hm]⟩
  · intro p f2 ep s b acc hnet hs
    exact fetch_step_stop (pinned_fail hnet hs)
  · intro p f2 ep acc hnet
    exact fetch_step_raised (pinned_exn hnet)

/-- Wraps a ride list in the documented response shape
`\x7b"code":200,"data":\x7b"rides":[...]\x7d\x7d` (the `code` field is irrelevant to
extraction and omitted). -/
def wrap_rides (xs : List JValue) : JValue :=
  .jObj [("data", .jObj [("rides", .jArr xs)])]

/-- A network whose first candidate serves the given page sequence and
whose other candidates are unreachable. -/
def netOf (pages : Nat → List JValue) : Network := fun p ep =>
  if ep = EP0 then .resp 200 (wrap_rides (pages p)) else .exn

/-- Page sizes [100, 100, 37]. -/
def pagesA : Nat → List JValue := fun p =>
  if p = 1 then (List.range 100).map (fun i => .jNum (Int.ofNat (100 + i)))
  else if p = 2 then (List.range 100).map (fun i => .jNum (Int.ofNat (200 + i)))
  else if p = 3 then (List.range 37).map (fun i => .jNum (Int.ofNat (300 + i)))
  else []

/-- Page sizes [100, 100, 0]. -/
def pagesB : Nat → List JValue := fun p =>
  if p = 1 then (List.range 100).map (fun i => .jNum (Int.ofNat (100 + i)))
  else if p = 2 then (List.range 100).map (fun i => .jNum (Int.ofNat (200 + i)))
  else []

/-- Page sizes [5]. -/
def pagesC : Nat → List JValue := fun p =>
  if p = 1 then (List.range 5).map (fun i => .jNum (Int.ofNat (100 + i)))
  else []

set_option maxRecDepth 40000 in
/-- Witness for C1 at the three spec scenarios: page sizes [100, 100, 37]
yield 237 records with requests for exactly pages 1..3; [100, 100, 0]
yield 200 records, stopping at the third (empty) page; [5] yields 5
records, stopping after the first page. -/
theorem C1_pagination_termination_witness :
    (fetch_all_rides (netOf pagesA) 10 =
      (.done ((List.range 3).flatMap (fun i => pagesA (i + 1))),
       [(1, EP0), (2, EP0), (3, EP0)])
     ∧ ((List.range 3).flatMap (fun i => pagesA (i + 1))).length = 237)
    ∧ (fetch_all_rides (netOf pagesB) 10 =
      (.done ((List.range 3).flatMap (fun i => pagesB (i + 1))),
       [(1, EP0), (2, EP0), (3, EP0)])
     ∧ ((List.range 3).flatMap (fun i => pagesB (i + 1))).length = 200)
    ∧ (fetch_all_rides (netOf pagesC) 10 =
      (.done ((List.range 1).flatMap (fun i => pagesC (i + 1))),
       [(1, EP0)])
     ∧ ((List.range 1).flatMap (fun i => pagesC (i + 1))).length = 5) := by
  refine ⟨⟨?_, by decide⟩, ⟨?_, by decide⟩, ⟨?_, by decide⟩⟩
  · exact C1_pagination_termination (netOf pagesA) pagesA 2 7
      ⟨_, rfl, rfl⟩ (fun i _ _ => ⟨_, rfl, rfl⟩)
      (fun i hi1 hi2 => by interval_cases i <;> decide) (by decide)
  · exact C1_pagination_termination (netOf pagesB) pagesB 2 7
      ⟨_, rfl, rfl⟩ (fun i _ _ => ⟨_, rfl, rfl⟩)
      (fun i hi1 hi2 => by interval_cases i <;> decide) (by decide)
  · exact C1_pagination_termination (netOf pagesC) pagesC 0 9
      ⟨_, rfl, rfl⟩ (fun i hi1 hi2 => absurd (hi1.trans hi2) (by decide))
      (fun i hi1 hi2 => absurd (hi1.trans hi2) (by decide)) (by decide)

/-- Pages 1 and 2 full, used by the 401 scenario. -/
def pages401 : Nat → List JValue := fun p =>
  if p = 1 then (List.range 100).map (fun i => .jNum (Int.ofNat (100 + i)))
  else if p = 2 then (List.range 100).map (fun i => .jNum (Int.ofNat (200 + i)))
  else []

/-- A network whose first candidate serves two full pages and answers 401
from page 3 on; the other candidate is unreachable. -/
def net401 : Network := fun p ep =>
  if ep = EP0 then
    (if p ≤ 2 then .resp 200 (wrap_rides (pages401 p)) else .resp 401 .jNull)
  else .exn

set_option maxRecDepth 40000 in
/-- Witness for C3: two full pages then a 401 on page 3; the fetch stops
with the 200 records of pages 1-2 (not an empty result) and exactly the
three requests for pages 1, 2, 3. -/
theorem C3_401_aborts_with_partial_results_witness :
    (fetch_all_rides net401 3 =
      (.done ((List.range 2).flatMap (fun i => pages401 (i + 1))),
       [(1, EP0), (2, EP0), (3, EP0)])
     ∧ (List.range 2).flatMap (fun i => pages401 (i + 1)) ≠ [])
    ∧ ((List.range 2).flatMap (fun i => pages401 (i + 1))).length = 200 := by
  refine ⟨?_, by decide⟩
  exact C3_401_aborts_with_partial_results net401 pages401 1 0
    ⟨_, rfl, rfl⟩
    (fun i hi1 hi2 => by interval_cases i; exact ⟨_, rfl, rfl⟩)
    (fun i hi1 hi2 => by interval_cases i <;> decide)
    ⟨.jNull, rfl⟩

/-- Pages for the pinning scenario: one full page then a short page. -/
def pagesC4 : Nat → List JValue := fun p =>
  if p = 1 then (List.range 100).map (fun i => .jNum (Int.ofNat (400 + i)))
  else if p = 2 then (List.range 5).map (fun i => .jNum (Int.ofNat (500 + i)))
  else []

/-- A network whose first candidate raises a request exception and whose
second candidate serves `pagesC4`. -/
def netC4 : Network := fun p ep =>
  if ep = EP0 then .exn else .resp 200 (wrap_rides (pagesC4 p))

/-- A network that always answers 503. -/
def net503 : Network := fun _ _ => .resp 503 .jNull

/-- A network that always raises a request exception. -/
def netExn : Network := fun _ _ => .exn

set_option maxRecDepth 40000 in
/-- Witness for C4: with the first candidate failing and the second
succeeding on page 1, every later request goes to the second candidate
only; a 503 from a pinned endpoint ends the fetch after one GET with the
accumulated records; an exception from a pinned endpoint propagates after
one GET. -/
theorem C4_endpoint_pinning_witness :
    (∃ m, (fetch_all_rides netC4 4).2 =
      [(1, EP0), (1, EP1)] ++ (List.range m).map (fun i => (2 + i, EP1)))
    ∧ fetch_pages net503 2 3 (some EP1) [] = (.done [], [(3, EP1)])
    ∧ fetch_pages netExn 2 4 (some EP0) [] = (.raised, [(4, EP0)]) := by
  refine ⟨?_, ?_, ?_⟩
  · exact (C4_endpoint_pinning netC4).1 3 _ EP1 _ rfl
  · exact (C4_endpoint_pinning net503).2.1 3 1 EP1 503 .jNull [] rfl (by decide)
  · exact (C4_endpoint_pinning netExn).2.2 4 1 EP0 [] rfl

/-- The fixed CSV column list of `export_to_csv`
(`robotaxi_history.py` lines 305-356), in source order. -/
def fieldnames : List String :=
  ["rideIntegerId", "rideId", "state", "status", "rideRequestedAt", "rideStartedAt",
   "rideCompletedAt", "timestamp", "pickupLocationName", "pickupLocationLatitude",
   "pickupLocationLongitude", "pickupLocationTimezone", "dropoffLocationName",
   "dropoffLocationLatitude", "dropoffLocationLongitude", "dropoffLocationTimezone",
   "dropoffLocationAddressId", "totalDistanceMiles", "driveDistanceMiles",
   "billedDistanceMiles", "totalDurationSeconds", "driveDurationSeconds", "totalDue",
   "totalDueTaxExcl", "estimatedPrice", "estimatedPriceCurrencyCode", "currencyCode",
   "rideFeeStatus", "rideFeeProcessFlag", "hasAdhocFee", "vin", "licensePlate",
   "vehicleModel", "countryCode", "priceBookGuid", "quoteId", "txid", "route",
   "routeImageUrl", "rideEta", "fleetCongestionPercent", "isValid", "invalidReason",
   "billOverrideReason", "disputeReason", "disputeComment", "billingUserId",
   "billingUserUuid", "billingUserAddressId", "riderSsoId"]

/-- A ride record: a JSON dict. -/
abbrev Record := List (String × JValue)

/-- One CSV data row, as built per ride: the value of each fixed column in
`fieldnames` order, defaulting to the empty string when the record lacks
the field (`ride.get(field, ...)` with an empty-string default).  Values
are taken as-is; fields of the record outside `fieldnames` contribute no
cell. -/
def csv_row (ride : Record) : List JValue :=
  fieldnames.map (fun fld => (dictGet ride fld).getD (.jStr ""))

/-- Embedding of `export_to_csv`: `none` models the early return (no file
written) for an empty ride list; otherwise the cells written: one header
row of the fixed column names followed by one data row per record. -/
def export_to_csv (rides : List Record) : Option (List (List JValue)) :=
  if rides.isEmpty then none
  else some ((fieldnames.map .jStr) :: rides.map csv_row)

/-- Whether a written cell is the empty string. -/
def isEmptyCell : JValue → Bool
  | .jStr s => s.isEmpty
  | _ => false

/-- A record with exactly 3 of the known fields populated. -/
def exRecord3 : Record :=
  [("rideId", .jStr "r-1"), ("vin", .jStr "VIN123"), ("totalDue", .jNum 12)]

/-- Counterexample to C2 as stated: the fixed column list has 50 entries,
not 45, and a record with 3 known fields populated yields 47 empty cells,
not 42. -/
theorem C2_counterexample :
    export_to_csv [exRecord3] = some [fieldnames.map .jStr, csv_row exRecord3]
    ∧ fieldnames.length = 50 ∧ ¬ fieldnames.length = 45
    ∧ (csv_row exRecord3).length = 50
    ∧ ((csv_row exRecord3).filter isEmptyCell).length = 47
    ∧ ¬ ((csv_row exRecord3).filter isEmptyCell).length = 42 :=
  ⟨rfl, by decide, by decide, by decide, by decide, by decide⟩

/-- C2 (amended): for every non-empty list of records, the export writes
exactly one header row of the 50 fixed named columns in fixed order,
followed by one row per record; each row has exactly one cell per fixed
column; a column absent from the record is the empty string; a column
present carries its value as-is; and record fields outside the fixed
column set contribute nothing. -/
theorem C2_csv_shape (rides : List Record) (h : rides ≠ []) :
    export_to_csv rides = some ((fieldnames.map .jStr) :: rides.map csv_row)
    ∧ fieldnames.length = 50
    ∧ (∀ ride : Record, (csv_row ride).length = fieldnames.length)
    ∧ (∀ (ride : Record) (i : Nat) (fld : String), fieldnames[i]? = some fld →
        dictGet ride fld = none → (csv_row ride)[i]? = some (.jStr ""))
    ∧ (∀ (ride : Record) (i : Nat) (fld : String) (v : JValue),
        fieldnames[i]? = some fld →
        dictGet ride fld = some v → (csv_row ride)[i]? = some v)
    ∧ (∀ (ride : Record) (fld : String) (v : JValue), ¬ fld ∈ fieldnames →
        csv_row ((fld, v) :: ride) = csv_row ride) := by
  refine ⟨?_, by decide, ?_, ?_, ?_, ?_⟩
  · rw [export_to_csv, if_neg (by simpa using h)]
  · intro ride; simp [csv_row]
  · intro ride i fld hi hd
    simp [csv_row, List.getElem?_map, hi, hd]
  · intro ride i fld v hi hd
    simp [csv_row, List.getElem?_map, hi, hd]
  · intro ride fld v hmem
    refine List.map_congr_left (fun f hf => ?_)
    have hne : (fld == f) = false := by
      refine beq_eq_false_iff_ne.mpr (fun e => hmem ?_)
      rw [e]; exact hf
    simp [dictGet, List.find?, hne]

/-- Witness for C2 (amended) at the 3-field record: the export writes
header plus one row, the row has one cell per column, the first column
(absent) is empty, the second column (populated) carries its value, and an
unknown field adds nothing. -/
theorem C2_csv_shape_witness :
    export_to_csv [exRecord3] = some ((fieldnames.map .jStr) :: [csv_row exRecord3])
    ∧ (csv_row exRecord3).length = fieldnames.length
    ∧ (csv_row exRecord3)[0]? = some (.jStr "")
    ∧ (csv_row exRecord3)[1]? = some (.jStr "r-1")
    ∧ csv_row (("notAColumn", .jNum 5) :: exRecord3) = csv_row exRecord3 := by
  have h := C2_csv_shape [exRecord3] (by simp)
  exact ⟨h.1, h.2.2.1 exRecord3,
    h.2.2.2.1 exRecord3 0 "rideIntegerId" rfl rfl,
    h.2.2.2.2.1 exRecord3 1 "rideId" (.jStr "r-1") rfl rfl,
    h.2.2.2.2.2 exRecord3 "notAColumn" (.jNum 5) (by decide)⟩

/-- A token-endpoint response: HTTP status plus the optional
`access_token` and `refresh_token` fields of the JSON body. -/
structure TokenResp where
  status : Nat
  access : Option String
  refresh : Option String
deriving Repr, DecidableEq

/-- Python truthiness of an optional string (`if token:`): `None` and the
empty string are falsy. -/
def truthy : Option String → Bool
  | none => false
  | some s => !s.isEmpty

/-- Python `a or b` on optional strings (`new_refresh or refresh_token`). -/
def pyOr (a b : Option String) : Option String :=
  if truthy a then a else b

/-- Outcome of `complete_auth`: one of its `sys.exit(1)` paths, or success
with the `access_token` and `refresh_token` fields of the 200 response. -/
inductive CAOutcome where
  | exitNoPending
  | exitNoCode
  | exitTokenFailed (status : Nat)
  | ok (access refresh : Option String)
deriving Repr, DecidableEq

/-- Embedding of `complete_auth` over explicit state: the pkce file
content (`none` = missing or unparsable), the parsed `code` query
parameter of the callback URL (`none` = absent; `parse_qs` drops empty
values), and the token-endpoint response.  Returns the outcome and the
pkce file state afterwards: `clear_pkce()` runs right after the POST,
before the status check. -/
def complete_auth (pkce : Option String) (codeParam : Option String)
    (resp : TokenResp) : CAOutcome × Option String :=
  if !truthy pkce then (.exitNoPending, pkce)
  else
    match codeParam with
    | none => (.exitNoCode, pkce)
    | some _ =>
      if resp.status ≠ 200 then (.exitTokenFailed resp.status, none)
      else (.ok resp.access resp.refresh, none)

/-- C6: once `complete_auth` reaches the token-exchange POST (a pending
verifier exists and the callback URL has a code parameter), the persisted
PKCE verifier is deleted regardless of the exchange outcome: afterwards it
is absent both when the token endpoint returns 200 (success, returning the
token pair) and when it returns any non-200 status (terminating the run
with the token-exchange failure). -/
theorem C6_pkce_cleared_after_exchange (pkce : Option String) (c : String)
    (resp : TokenResp) (hp : truthy pkce = true) :
    (complete_auth pkce (some c) resp).2 = none
    ∧ (resp.status ≠ 200 →
        (complete_auth pkce (some c) resp).1 = .exitTokenFailed resp.status)
    ∧ (resp.status = 200 →
        (complete_auth pkce (some c) resp).1 = .ok resp.access resp.refresh) := by
  by_cases hs : resp.status = 200
  · exact ⟨by simp [complete_auth, hp, hs], fun h => absurd hs h,
      fun _ => by simp [complete_auth, hp, hs]⟩
  · exact ⟨by simp [complete_auth, hp, hs], fun _ => by simp [complete_auth, hp, hs],
      fun h => absurd h hs⟩

/-- Witness for C6: a concrete pending verifier and code, exercised at a
200 response and at a 400 response; the verifier is gone in both runs. -/
theorem C6_pkce_cleared_after_exchange_witness :
    truthy (some "verifier-1") = true
    ∧ (complete_auth (some "verifier-1") (some "authcode")
        ⟨200, some "AT", some "RT"⟩).2 = none
    ∧ (complete_auth (some "verifier-1") (some "authcode") ⟨400, none, none⟩).2 = none
    ∧ (complete_auth (some "verifier-1") (some "authcode") ⟨400, none, none⟩).1 =
        .exitTokenFailed 400 :=
  ⟨by decide,
   (C6_pkce_cleared_after_exchange (some "verifier-1") "authcode"
     ⟨200, some "AT", some "RT"⟩ (by decide)).1,
   (C6_pkce_cleared_after_exchange (some "verifier-1") "authcode"
     ⟨400, none, none⟩ (by decide)).1,
   (C6_pkce_cleared_after_exchange (some "verifier-1") "authcode"
     ⟨400, none, none⟩ (by decide)).2.1 (by decide)⟩

/-- The contents of the two persisted files: the PKCE verifier file
(`~/.robotaxi_pkce.json`) and the token file (`~/.robotaxi_tokens.json`,
holding the access/refresh pair; `none` = file absent or unparsable). -/
structure World where
  pkceFile : Option String
  tokensFile : Option (Option String × Option String)
deriving Repr, DecidableEq

/-- Embedding of `load_tokens`: the stored pair, or `(None, None)` when
the file is missing or unreadable. -/
def load_tokens (w : World) : Option String × Option String :=
  w.tokensFile.getD (none, none)

/-- Embedding of `save_tokens`: overwrite the token file with the pair. -/
def save_tokens (a r : Option String) (w : World) : World :=
  { w with tokensFile := some (a, r) }

/-- Embedding of `authenticate_with_refresh_token`: non-200 →
`(None, None)`; otherwise the `access_token`/`refresh_token` fields of the
body. -/
def authenticate_with_refresh_token (resp : TokenResp) :
    Option String × Option String :=
  if resp.status ≠ 200 then (none, none)
  else (resp.access, resp.refresh)

/-- The environment of one `main` invocation: the token-endpoint responses
for a refresh POST and for a code-exchange POST, the parsed `code`
parameter of the callback URL argument, and the verifier `start_auth`
would generate if it runs. -/
structure MainEnv where
  refreshResp : TokenResp
  exchangeResp : TokenResp
  codeParam : Option String
  freshVerifier : String
deriving Repr, DecidableEq

/-- What a `main` run did: ran `fetch_and_export` with the given tokens,
started a fresh login (printed an auth URL), or exited with an error. -/
inductive MainOutcome where
  | fetched (access refresh : Option String)
  | startedLogin
  | exited
deriving Repr, DecidableEq

/-- Embedding of `main` (`robotaxi_history.py` lines 410-439): refresh the
stored session when tokens exist and no callback URL is given (falling
through to a fresh login when the refresh fails); complete a pending login
when a callback URL is given, persisting the tokens only when the exchange
returned a truthy refresh token, then fetching regardless; otherwise start
a login. -/
def main_entry (w : World) (callbackGiven : Bool) (env : MainEnv) :
    MainOutcome × World :=
  let lt := load_tokens w
  if truthy lt.1 && truthy lt.2 && !callbackGiven then
    let nt := authenticate_with_refresh_token env.refreshResp
    if truthy nt.1 then
      let access2 := nt.1
      let refresh2 := pyOr nt.2 lt.2
      (.fetched access2 refresh2, save_tokens access2 refresh2 w)
    else
      (.startedLogin, { w with pkceFile := some env.freshVerifier })
  else if callbackGiven then
    match complete_auth w.pkceFile env.codeParam env.exchangeResp with
    | (.ok access2 refresh2, pk2) =>
      let w2 : World := { w with pkceFile := pk2 }
      let w3 := if truthy refresh2 then save_tokens access2 refresh2 w2 else w2
      (.fetched access2 refresh2, w3)
    | (_, pk2) => (.exited, { w with pkceFile := pk2 })
  else
    (.startedLogin, { w with pkceFile := some env.freshVerifier })

/-- World for the C7 scenario: a pending verifier, no stored tokens. -/
def w7 : World := ⟨some "verifier-1", none⟩

/-- Environment for the C7 counterexample: the code exchange answers 200
with an access token but no refresh token. -/
def env7 : MainEnv :=
  ⟨⟨200, none, none⟩, ⟨200, some "AT-new", none⟩, some "authcode", "fresh"⟩

/-- Counterexample to C7 as stated: with a callback URL given and a
successful exchange whose response has no refresh token, `main` runs
fetch+export with the new tokens but the token file is NOT written — it
still does not contain the tokens returned by the exchange. -/
theorem C7_counterexample :
    (main_entry w7 true env7).1 = .fetched (some "AT-new") none
    ∧ ((main_entry w7 true env7).2).tokensFile = none
    ∧ ¬ ((main_entry w7 true env7).2).tokensFile = some (some "AT-new", none) := by
  refine ⟨rfl, rfl, by decide⟩

/-- C7 (amended): whenever a callback URL is given and the exchange
reaches a 200 response, `main` runs fetch+export with the returned tokens;
the pair is persisted to the token file exactly when the response carried
a truthy refresh token, and the pending verifier is deleted. -/
theorem C7_callback_persists_tokens (w : World) (env : MainEnv) (c : String)
    (hp : truthy w.pkceFile = true) (hc : env.codeParam = some c)
    (hs : env.exchangeResp.status = 200) :
    main_entry w true env =
      (.fetched env.exchangeResp.access env.exchangeResp.refresh,
       ⟨none,
        if truthy env.exchangeResp.refresh then
          some (env.exchangeResp.access, env.exchangeResp.refresh)
        else w.tokensFile⟩) := by
  have hca : complete_auth w.pkceFile env.codeParam env.exchangeResp =
      (.ok env.exchangeResp.access env.exchangeResp.refresh, none) := by
    simp [complete_auth, hp, hc, hs]
  by_cases hr : truthy env.exchangeResp.refresh
  · simp [main_entry, hca, hr, save_tokens]
  · simp [main_entry, hca, hr]

/-- Environment for the C7 witness: the exchange answers 200 with both an
access and a refresh token. -/
def env7b : MainEnv :=
  ⟨⟨200, none, none⟩, ⟨200, some "AT-new", some "RT-new"⟩, some "authcode", "fresh"⟩

/-- Witness for C7 (amended): with a refresh token in the exchange
response, `main` persists the pair and fetches with it; the verifier file
is cleared. -/
theorem C7_callback_persists_tokens_witness :
    main_entry w7 true env7b =
      (.fetched (some "AT-new") (some "RT-new"),
       ⟨none, some (some "AT-new", some "RT-new")⟩) := by
  have h := C7_callback_persists_tokens w7 env7b "authcode" (by decide) rfl rfl
  simpa using h

/-- C10: when stored tokens exist, no callback URL is given, and the
refresh succeeds (200 with a truthy new access token) but the refresh
response carries no `refresh_token` field, `main` persists the new access
token paired with the previously stored refresh token — never an
absent/null refresh token — and fetches with that same pair. -/
theorem C10_refresh_preserves_refresh_token (w : World) (env : MainEnv)
    (a r : String)
    (hload : load_tokens w = (some a, some r)) (ha : a ≠ "") (hr : r ≠ "")
    (hs : env.refreshResp.status = 200)
    (hacc : truthy env.refreshResp.access = true)
    (hnorefresh : env.refreshResp.refresh = none) :
    main_entry w false env =
      (.fetched env.refreshResp.access (some r),
       ⟨w.pkceFile, some (env.refreshResp.access, some r)⟩) := by
  have hae : a.isEmpty = false := by
    cases hie : a.isEmpty
    · rfl
    · exact absurd ((String.isEmpty_iff a).mp hie) ha
  have hre : r.isEmpty = false := by
    cases hie : r.isEmpty
    · rfl
    · exact absurd ((String.isEmpty_iff r).mp hie) hr
  have hta : truthy (some a) = true := by simp [truthy, hae]
  have htr : truthy (some r) = true := by simp [truthy, hre]
  have htn : truthy none = false := rfl
  have hauth : authenticate_with_refresh_token env.refreshResp =
      (env.refreshResp.access, env.refreshResp.refresh) := by
    simp [authenticate_with_refresh_token, hs]
  simp [main_entry, hload, hta, htr, hauth, hacc, hnorefresh, pyOr, htn,
    save_tokens]

/-- World for the C10 witness: a stored token pair, no pending verifier. -/
def w10 : World := ⟨none, some (some "AT-old", some "RT-old")⟩

/-- Environment for the C10 witness: the refresh POST answers 200 with a
new access token and no refresh token. -/
def env10 : MainEnv :=
  ⟨⟨200, some "AT-2", none⟩, ⟨200, none, none⟩, none, "fresh"⟩

/-- Witness for C10: the persisted pair couples the new access token with
the old refresh token. -/
theorem C10_refresh_preserves_refresh_token_witness :
    main_entry w10 false env10 =
      (.fetched (some "AT-2") (some "RT-old"),
       ⟨none, some (some "AT-2", some "RT-old")⟩) := by
  have h := C10_refresh_preserves_refresh_token w10 env10 "AT-old" "RT-old"
    rfl (by decide) (by decide) rfl rfl rfl
  simpa using h

/-- Result of one `urlopen` call made by the dev proxy: a 2xx response
read verbatim, an `HTTPError` with a status code, or another exception
(network fault). -/
inductive UpstreamResult where
  | ok (body : String)
  | httpErr (code : Nat)
  | fault
deriving Repr, DecidableEq

/-- A response body written by the proxy: an upstream body forwarded
verbatim, or a JSON-wrapped error message. -/
inductive ProxyBody where
  | verbatim (s : String)
  | jsonError (msg : String)
deriving Repr, DecidableEq

/-- The first ride-history candidate URL tried by the dev proxy, with the
incoming query string appended. -/
def proxy_url0 (query : String) : String :=
  "https://ownership.tesla.com/mobile-app/ride/history?" ++ query

/-- The second ride-history candidate URL tried by the dev proxy. -/
def proxy_url1 (query : String) : String :=
  "https://akamai-apigateway-charging-ownership.tesla.com/mobile-app/ride/history?" ++ query

/-- The ordered candidate list of `ProxyHandler.proxy_rides_request`. -/
def proxy_candidates (query : String) : List String :=
  [proxy_url0 query, proxy_url1 query]

/-- Outcome of the proxy's candidate loop body: a 200 response sent with
an upstream body, a re-raised 401 `HTTPError`, a propagating non-HTTP
exception, or loop exhaustion (all candidates raised non-401
`HTTPError`s). -/
inductive ProxyLoopOutcome where
  | sent (body : String)
  | raised401
  | raisedFault
  | exhausted
deriving Repr, DecidableEq

/-- The candidate loop of `proxy_rides_request`: forward to each candidate
in order; a success is sent immediately; a 401 `HTTPError` is re-raised
immediately; any other `HTTPError` moves to the next candidate; a
non-HTTP exception propagates.  Also records which candidate URLs were
contacted, in order. -/
def proxy_rides_loop (up : String → UpstreamResult) :
    List String → ProxyLoopOutcome × List String
  | [] => (.exhausted, [])
  | url :: rest =>
    match up url with
    | .ok body => (.sent body, [url])
    | .httpErr code =>
      if code == 401 then (.raised401, [url])
      else
        let r := proxy_rides_loop up rest
        (r.1, url :: r.2)
    | .fault => (.raisedFault, [url])

/-- Embedding of `ProxyHandler.proxy_rides_request`
(`web/server.py` lines 64-116): run the candidate loop; on exhaustion
answer 502 with a "No working endpoint" body; a re-raised 401 is caught by
the outer `except HTTPError` handler, answering 401 with an "API error"
body; any other exception is caught by `except Exception`, answering 500.
Returns (status, body) and the list of candidate URLs contacted. -/
def proxy_rides_request (up : String → UpstreamResult) (query : String) :
    (Nat × ProxyBody) × List String :=
  let r := proxy_rides_loop up (proxy_candidates query)
  match r.1 with
  | .sent body => ((200, .verbatim body), r.2)
  | .exhausted => ((502, .jsonError "No working endpoint"), r.2)
  | .raised401 => ((401, .jsonError "API error: 401"), r.2)
  | .raisedFault => ((500, .jsonError "fault"), r.2)

/-- C9: for every upstream behaviour and query string, the dev proxy tries
the candidates in their fixed order: a 200 answer is forwarded verbatim
with no later candidate contacted; a 401 `HTTPError` is answered with
status 401 immediately without trying further candidates (whether it comes
from the first candidate or from a later one reached after non-401
failures); and when every candidate raises a non-401 `HTTPError` the proxy
answers 502 with the "No working endpoint" error body. -/
theorem C9_proxy_candidate_order (up : String → UpstreamResult) (query : String) :
    (∀ b, up (proxy_url0 query) = .ok b →
      proxy_rides_request up query =
        ((200, .verbatim b), [proxy_url0 query]))
    ∧ (∀ c b2, up (proxy_url0 query) = .httpErr c → c ≠ 401 →
        up (proxy_url1 query) = .ok b2 →
        proxy_rides_request up query =
          ((200, .verbatim b2), proxy_candidates query))
    ∧ (up (proxy_url0 query) = .httpErr 401 →
        proxy_rides_request up query =
          ((401, .jsonError "API error: 401"), [proxy_url0 query]))
    ∧ (∀ c1, up (proxy_url0 query) = .httpErr c1 → c1 ≠ 401 →
        up (proxy_url1 query) = .httpErr 401 →
        proxy_rides_request up query =
          ((401, .jsonError "API error: 401"), proxy_candidates query))
    ∧ (∀ c1 c2, up (proxy_url0 query) = .httpErr c1 → c1 ≠ 401 →
        up (proxy_url1 query) = .httpErr c2 → c2 ≠ 401 →
        proxy_rides_request up query =
          ((502, .jsonError "No working endpoint"), proxy_candidates query)) := by
  refine ⟨?_, ?_, ?_, ?_, ?_⟩
  · intro b h0
    simp [proxy_rides_request, proxy_rides_loop, proxy_candidates] at h0 ⊢
    simp [h0]
  · intro c b2 h0 hc h1
    simp [proxy_rides_request, proxy_rides_loop, proxy_candidates] at h0 h1 ⊢
    simp [h0, h1, hc]
  · intro h0
    simp [proxy_rides_request, proxy_rides_loop, proxy_candidates] at h0 ⊢
    simp [h0]
  · intro c1 h0 hc h1
    simp [proxy_rides_request, proxy_rides_loop, proxy_candidates] at h0 h1 ⊢
    simp [h0, h1, hc]
  · intro c1 c2 h0 hc1 h1 hc2
    simp [proxy_rides_request, proxy_rides_loop, proxy_candidates] at h0 h1 ⊢
    simp [h0, h1, hc1, hc2]

/-- Upstream where the first candidate answers 200. -/
def upOk0 : String → UpstreamResult := fun u =>
  if u = proxy_url0 "pageNo=1" then .ok "PAGE1-BODY" else .fault

/-- Upstream where the first candidate raises a 503 `HTTPError` and the
second answers 200. -/
def upSecond : String → UpstreamResult := fun u =>
  if u = proxy_url0 "pageNo=1" then .httpErr 503
  else if u = proxy_url1 "pageNo=1" then .ok "PAGE1-BODY-2" else .fault

/-- Upstream where every candidate raises a 401 `HTTPError`. -/
def up401 : String → UpstreamResult := fun _ => .httpErr 401

/-- Upstream where the first candidate raises a 500 `HTTPError` and the
rest raise 401. -/
def up401b : String → UpstreamResult := fun u =>
  if u = proxy_url0 "pageNo=1" then .httpErr 500 else .httpErr 401

/-- Upstream where every candidate raises a 503 `HTTPError`. -/
def up503 : String → UpstreamResult := fun _ => .httpErr 503

/-- Witness for C9: the five upstream scenarios at a concrete query — 200
from the first candidate (second never contacted), 200 from the second
after a 503, 401 immediately, 401 after a 503, and 503 twice giving the
502 "No working endpoint" answer. -/
theorem C9_proxy_candidate_order_witness :
    proxy_rides_request upOk0 "pageNo=1" =
      ((200, .verbatim "PAGE1-BODY"), [proxy_url0 "pageNo=1"])
    ∧ proxy_rides_request upSecond "pageNo=1" =
      ((200, .verbatim "PAGE1-BODY-2"), proxy_candidates "pageNo=1")
    ∧ proxy_rides_request up401 "pageNo=1" =
      ((401, .jsonError "API error: 401"), [proxy_url0 "pageNo=1"])
    ∧ proxy_rides_request up401b "pageNo=1" =
      ((401, .jsonError "API error: 401"), proxy_candidates "pageNo=1")
    ∧ proxy_rides_request up503 "pageNo=1" =
      ((502, .jsonError "No working endpoint"), proxy_candidates "pageNo=1") :=
  ⟨(C9_proxy_candidate_order upOk0 "pageNo=1").1 "PAGE1-BODY" rfl,
   (C9_proxy_candidate_order upSecond "pageNo=1").2.1 503 "PAGE1-BODY-2" rfl
     (by decide) rfl,
   (C9_proxy_candidate_order up401 "pageNo=1").2.2.1 rfl,
   (C9_proxy_candidate_order up401b "pageNo=1").2.2.2.1 500 rfl (by decide) rfl,
   (C9_proxy_candidate_order up503 "pageNo=1").2.2.2.2 503 503 rfl (by decide) rfl
     (by decide)⟩

/-- Truncation to a 32-bit word. -/
def w32 (x : Nat) : Nat := x % 4294967296

/-- 32-bit rotate right. -/
def rotr32 (n x : Nat) : Nat := w32 ((x >>> n) ||| (x <<< (32 - n)))

/-- SHA-256 big sigma 0. -/
def bsig0 (x : Nat) : Nat := rotr32 2 x ^^^ rotr32 13 x ^^^ rotr32 22 x

/-- SHA-256 big sigma 1. -/
def bsig1 (x : Nat) : Nat := rotr32 6 x ^^^ rotr32 11 x ^^^ rotr32 25 x

/-- SHA-256 small sigma 0. -/
def ssig0 (x : Nat) : Nat := rotr32 7 x ^^^ rotr32 18 x ^^^ (x >>> 3)

/-- SHA-256 small sigma 1. -/
def ssig1 (x : Nat) : Nat := rotr32 17 x ^^^ rotr32 19 x ^^^ (x >>> 10)

/-- SHA-256 choose function (not-x as xor against the 32-bit mask). -/
def sha_ch (x y z : Nat) : Nat := (x &&& y) ^^^ ((x ^^^ 4294967295) &&& z)

/-- SHA-256 majority function. -/
def sha_maj (x y z : Nat) : Nat := (x &&& y) ^^^ (x &&& z) ^^^ (y &&& z)

/-- The 64 SHA-256 round constants. -/
def sha_K : Array Nat := #[
  1116352408, 1899447441, 3049323471, 3921009573,
  961987163, 1508970993, 2453635748, 2870763221,
  3624381080, 310598401, 607225278, 1426881987,
  1925078388, 2162078206, 2614888103, 3248222580,
  3835390401, 4022224774, 264347078, 604807628,
  770255983, 1249150122, 1555081692, 1996064986,
  2554220882, 2821834349, 2952996808, 3210313671,
  3336571891, 3584528711, 113926993, 338241895,
  666307205, 773529912, 1294757372, 1396182291,
  1695183700, 1986661051, 2177026350, 2456956037,
  2730485921, 2820302411, 3259730800, 3345764771,
  3516065817, 3600352804, 4094571909, 275423344,
  430227734, 506948616, 659060556, 883997877,
  958139571, 1322822218, 1537002063, 1747873779,
  1955562222, 2024104815, 2227730452, 2361852424,
  2428436474, 2756734187, 3204031479, 3329325298]

/-- The SHA-256 initial hash value. -/
def sha_H0 : List Nat :=
  [1779033703, 3144134277, 1013904242, 2773480762,
   1359893119, 2600822924, 528734635, 1541459225]

/-- Big-endian bytes of a number, fixed width. -/
def toBytesBE (n x : Nat) : List Nat :=
  (List.range n).map (fun i => (x >>> (8 * (n - 1 - i))) % 256)

/-- Big-endian 32-bit words from bytes (length a multiple of 4). -/
def toWords : List Nat → List Nat
  | a :: b :: c :: d :: rest =>
    (a * 16777216 + b * 65536 + c * 256 + d) :: toWords rest
  | _ => []

/-- SHA-256 working state, registers a-h. -/
structure Hash8 where
  a : Nat
  b : Nat
  c : Nat
  d : Nat
  e : Nat
  f : Nat
  g : Nat
  h : Nat
deriving Repr

/-- One SHA-256 round. -/
def sha_round (W : Array Nat) (st : Hash8) (i : Nat) : Hash8 :=
  let T1 := w32 (st.h + bsig1 st.e + sha_ch st.e st.f st.g + sha_K.getD i 0 + W.getD i 0)
  let T2 := w32 (bsig0 st.a + sha_maj st.a st.b st.c)
  ⟨w32 (T1 + T2), st.a, st.b, st.c, w32 (st.d + T1), st.e, st.f, st.g⟩

/-- SHA-256 compression of one 64-byte block into the running hash. -/
def sha_compress (H : List Nat) (block : List Nat) : List Nat :=
  let W0 : Array Nat := (toWords block).toArray
  let W := (List.range 48).foldl (fun w i =>
    w.push (w32 (w.getD i 0 + ssig0 (w.getD (i + 1) 0) + w.getD (i + 9) 0 +
      ssig1 (w.getD (i + 14) 0)))) W0
  let st0 : Hash8 := ⟨H.getD 0 0, H.getD 1 0, H.getD 2 0, H.getD 3 0,
    H.getD 4 0, H.getD 5 0, H.getD 6 0, H.getD 7 0⟩
  let stf := (List.range 64).foldl (sha_round W) st0
  [w32 (st0.a + stf.a), w32 (st0.b + stf.b), w32 (st0.c + stf.c), w32 (st0.d + stf.d),
   w32 (st0.e + stf.e), w32 (st0.f + stf.f), w32 (st0.g + stf.g), w32 (st0.h + stf.h)]

/-- SHA-256 padding: append 0x80, zeros, and the 64-bit big-endian bit
length, to a multiple of 64 bytes. -/
def sha256_pad (msg : List Nat) : List Nat :=
  let L := msg.length
  let k := (64 - ((L + 9) % 64)) % 64
  msg ++ [128] ++ List.replicate k 0 ++ toBytesBE 8 (8 * L)

/-- Fold the compression over consecutive 64-byte blocks (the fuel, at
least the byte count, makes the recursion structural; `sha256` passes the
padded length, which exceeds the block count). -/
def sha256_blocks : Nat → List Nat → List Nat → List Nat
  | _, H, [] => H
  | 0, H, _ => H
  | fuel + 1, H, b :: rest =>
    sha256_blocks fuel (sha_compress H ((b :: rest).take 64)) ((b :: rest).drop 64)

/-- SHA-256 of a byte string, as the 32 digest bytes. -/
def sha256 (msg : List Nat) : List Nat :=
  let padded := sha256_pad msg
  (sha256_blocks padded.length sha_H0 padded).flatMap (toBytesBE 4)

/-- The URL-safe base64 alphabet as codepoints: A-Z, a-z, 0-9, then the
characters at codepoints 45 and 95 (dash and underscore). -/
def b64url_code (n : Nat) : Nat :=
  if n < 26 then 65 + n
  else if n < 52 then 71 + n
  else if n < 62 then n - 4
  else if n = 62 then 45
  else 95

/-- `base64.urlsafe_b64encode` over 3-byte groups, producing codepoints,
padding the final partial group with codepoint 61 (the equals sign). -/
def b64_pad_codes : List Nat → List Nat
  | b0 :: b1 :: b2 :: rest =>
    b64url_code (b0 / 4) :: b64url_code (b0 % 4 * 16 + b1 / 16) ::
      b64url_code (b1 % 16 * 4 + b2 / 64) :: b64url_code (b2 % 64) ::
      b64_pad_codes rest
  | [b0, b1] =>
    [b64url_code (b0 / 4), b64url_code (b0 % 4 * 16 + b1 / 16),
     b64url_code (b1 % 16 * 4), 61]
  | [b0] => [b64url_code (b0 / 4), b64url_code (b0 % 4 * 16), 61, 61]
  | [] => []

/-- Reference encoder that never emits padding: the spec's
`base64url_nopad`. -/
def b64_nopad_codes : List Nat → List Nat
  | b0 :: b1 :: b2 :: rest =>
    b64url_code (b0 / 4) :: b64url_code (b0 % 4 * 16 + b1 / 16) ::
      b64url_code (b1 % 16 * 4 + b2 / 64) :: b64url_code (b2 % 64) ::
      b64_nopad_codes rest
  | [b0, b1] =>
    [b64url_code (b0 / 4), b64url_code (b0 % 4 * 16 + b1 / 16),
     b64url_code (b1 % 16 * 4)]
  | [b0] => [b64url_code (b0 / 4), b64url_code (b0 % 4 * 16)]
  | [] => []

/-- Python `.rstrip` of the equals sign (codepoint 61), at codepoint
level: drop every trailing 61. -/
def rstrip_eq_codes (l : List Nat) : List Nat :=
  (l.reverse.dropWhile (fun c => c == 61)).reverse

/-- The alphabet never produces the padding codepoint. -/
theorem b64url_code_beq_61 (n : Nat) : (b64url_code n == 61) = false := by
  refine beq_eq_false_iff_ne.mpr ?_
  unfold b64url_code
  split
  · omega
  · split
    · omega
    · split
      · omega
      · split <;> omega

theorem rstrip_eq_codes_append (xs ys : List Nat)
    (hx : ∀ x ∈ xs, (x == 61) = false) :
    rstrip_eq_codes (xs ++ ys) = xs ++ rstrip_eq_codes ys := by
  unfold rstrip_eq_codes
  rw [List.reverse_append, List.dropWhile_append]
  by_cases h : (List.dropWhile (fun c => c == 61) ys.reverse).isEmpty
  · simp only [h, if_true]
    rw [List.isEmpty_iff] at h
    rw [h]
    rcases hxr : xs.reverse with _ | ⟨a, t⟩
    · have : xs = [] := by simpa using congrArg List.reverse hxr
      simp [this]
    · have ha : a ∈ xs := by
        have : a ∈ xs.reverse := by rw [hxr]; exact List.mem_cons_self a t
        simpa using this
      rw [List.dropWhile_cons, hx a ha]
      simp [← hxr]
  · simp only [Bool.not_eq_true] at h
    rw [h]
    simp

/-- Stripping the trailing padding from the padded encoding gives exactly
the padding-free encoding. -/
theorem rstrip_pad_eq_nopad : ∀ bs : List Nat,
    rstrip_eq_codes (b64_pad_codes bs) = b64_nopad_codes bs
  | [] => by simp [b64_pad_codes, b64_nopad_codes, rstrip_eq_codes]
  | [b0] => by
    show rstrip_eq_codes
      ([b64url_code (b0 / 4), b64url_code (b0 % 4 * 16)] ++ [61, 61]) = _
    rw [rstrip_eq_codes_append _ _ (by
      intro x hx
      simp at hx
      rcases hx with rfl | rfl <;> exact b64url_code_beq_61 _)]
    simp [b64_nopad_codes, rstrip_eq_codes, List.dropWhile]
  | [b0, b1] => by
    show rstrip_eq_codes
      ([b64url_code (b0 / 4), b64url_code (b0 % 4 * 16 + b1 / 16),
        b64url_code (b1 % 16 * 4)] ++ [61]) = _
    rw [rstrip_eq_codes_append _ _ (by
      intro x hx
      simp at hx
      rcases hx with rfl | rfl | rfl <;> exact b64url_code_beq_61 _)]
    simp [b64_nopad_codes, rstrip_eq_codes, List.dropWhile]
  | b0 :: b1 :: b2 :: rest => by
    have IH := rstrip_pad_eq_nopad rest
    show rstrip_eq_codes
      ([b64url_code (b0 / 4), b64url_code (b0 % 4 * 16 + b1 / 16),
        b64url_code (b1 % 16 * 4 + b2 / 64), b64url_code (b2 % 64)] ++
        b64_pad_codes rest) = _
    rw [rstrip_eq_codes_append _ _ (by
      intro x hx
      simp at hx
      rcases hx with rfl | rfl | rfl | rfl <;> exact b64url_code_beq_61 _)]
    rw [IH]
    rfl

/-- UTF-8 bytes of one codepoint (Python `str.encode()` per character). -/
def utf8_char_bytes (c : Nat) : List Nat :=
  if c < 128 then [c]
  else if c < 2048 then [192 + c / 64, 128 + c % 64]
  else if c < 65536 then [224 + c / 4096, 128 + c / 64 % 64, 128 + c % 64]
  else [240 + c / 262144, 128 + c / 4096 % 64, 128 + c / 64 % 64, 128 + c % 64]

/-- UTF-8 bytes of a string (`code_verifier.encode()`). -/
def str_utf8 (s : String) : List Nat :=
  s.data.flatMap (fun ch => utf8_char_bytes ch.toNat)

/-- Embedding of the challenge derivation in `generate_pkce_pair`
(`robotaxi_history.py` lines 55-57):
`base64.urlsafe_b64encode(hashlib.sha256(verifier.encode()).digest())`
decoded and right-stripped of padding. -/
def pkce_challenge (verifier : String) : String :=
  String.mk ((rstrip_eq_codes (b64_pad_codes (sha256 (str_utf8 verifier)))).map
    Char.ofNat)

/-- The spec-side reference: base64url without padding, applied to a byte
string. -/
def base64url_nopad (bs : List Nat) : String :=
  String.mk ((b64_nopad_codes bs).map Char.ofNat)

set_option maxRecDepth 100000 in
/-- C8: the PKCE challenge derivation is deterministic and equals the
reference definition: for every verifier string the produced challenge is
base64url(SHA-256(verifier)) with trailing padding stripped, and for the
verifier "abc" it equals the fixed precomputed value of that expression. -/
theorem C8_pkce_challenge_deterministic (v : String) :
    pkce_challenge v = base64url_nopad (sha256 (str_utf8 v))
    ∧ pkce_challenge "abc" = "ungWv48Bz-pBQUDeXa4iI7ADYaOWF3qctBD_YfIAFa0" := by
  constructor
  · unfold pkce_challenge base64url_nopad
    rw [rstrip_pad_eq_nopad]
  · decide
